import Mathlib

/-!
Verification of the cache background worker (`cache/worker.rs`).

The development shallowly embeds the worker's pure decision logic.
Filesystem state is represented explicitly:

* times and durations are integers (one unit = one second);
* a directory listing is a `List Node`; a file carries its Rust
  `file_stem()` / `extension()` decomposition, plus an `Option Meta`
  modelling a fallible `metadata()` call whose `modified()` result is in
  turn fallible (`Option Int`);
* fallible external operations (zstd, `fs_write_atomic`, `fs::read`,
  `fs::rename`, ...) are oracle inputs, so every failure mode of the code
  is reachable in the model.
-/

namespace CacheWorker

/-- `DEFAULT_THRESHOLD` from `is_fs_lock_expired`: 24 hours, in seconds. -/
def DEFAULT_THRESHOLD : Int := 60 * 60 * 24

/-- Embedding of `is_fs_lock_expired(entry, path, threshold)`.

`mtime = none` models a failed `metadata()`/`modified()` chain.
`SystemTime::elapsed` succeeds with `now - mt` when `mt ≤ now` and fails
with error duration `mt - now` otherwise. -/
def is_fs_lock_expired (mtime : Option Int) (now : Int) (threshold : Int) : Bool :=
  match mtime with
  | none => true
  | some mt =>
    if mt ≤ now then
      threshold ≤ now - mt
    else
      DEFAULT_THRESHOLD < mt - now

/-- Metadata of a file, as far as the worker reads it: `modified()` (which
can fail) and `len()`. -/
structure Meta where
  mtime : Option Int
  len : Nat
deriving DecidableEq, Repr

/-- A file in a directory listing. `path` is the full path (used only as an
identifier for deletion sets); `stem`/`ext` are the Rust `file_stem()` and
`extension()` of its name; `meta = none` models a failed `metadata()` call. -/
structure FileMeta where
  path : String
  stem : String
  ext : Option String
  meta : Option Meta
deriving DecidableEq, Repr

/-- A node of the cache tree: a file, or a directory with its listing
(`readable = false` models a directory whose `read_dir` fails). -/
inductive Node where
  | file (f : FileMeta)
  | dir (path : String) (readable : Bool) (entries : List Node)

/-- The `metadata().and_then(|m| m.modified())` chain on a file. -/
def fileMtime (f : FileMeta) : Option Int :=
  f.meta.bind Meta.mtime

/-- Model of Rust `str::starts_with`: character-list prefix test. -/
def starts_with (s pre : String) : Bool :=
  pre.data.isPrefixOf s.data

/-- The loop of `acquire_task_fs_lock`: is there a sibling file with the
task's stem and an extension starting with `wip-` whose lock has not
expired? -/
def hasUnexpiredWipLock (entries : List Node) (taskStem : String)
    (now timeout : Int) : Bool :=
  entries.any fun n =>
    match n with
    | .dir _ _ _ => false
    | .file f =>
      f.stem == taskStem &&
        match f.ext with
        | none => false
        | some e => starts_with e "wip-" && !is_fs_lock_expired (fileMtime f) now timeout

/-- `create_new` semantics: creation of `<taskStem>.<lockExt>` fails when an
entry with that name already exists. -/
def lockNameTaken (entries : List Node) (taskStem lockExt : String) : Bool :=
  entries.any fun n =>
    match n with
    | .file f => f.stem == taskStem && f.ext == some lockExt
    | .dir p _ _ => p == taskStem ++ "." ++ lockExt

/-- The fresh zero-byte lock file created by a successful
`acquire_task_fs_lock` at time `now`: name `<taskStem>.wip-<pid>`. -/
def lockNode (taskStem : String) (pid : Nat) (now : Int) : Node :=
  Node.file ⟨taskStem ++ "." ++ ("wip-" ++ Nat.repr pid), taskStem,
    some ("wip-" ++ Nat.repr pid), some ⟨some now, 0⟩⟩

/-- Embedding of `acquire_task_fs_lock(task_path, timeout)`.

`entries` is the listing of the task path's parent directory, `pid` the
process id and `now` the current time; `createOk` is an oracle for I/O
failures of the `create_new` open other than the file already existing.
On success the lock path and the updated directory listing (with the
fresh zero-byte lock file, mtime `now`) are returned. Per-entry read
errors of the directory iterator are not modelled (the listing is given). -/
def acquire_task_fs_lock (entries : List Node) (taskStem : String) (pid : Nat)
    (now timeout : Int) (createOk : Bool) : Option (String × List Node) :=
  if hasUnexpiredWipLock entries taskStem now timeout then
    none
  else if lockNameTaken entries taskStem ("wip-" ++ Nat.repr pid) then
    none
  else if createOk then
    some (taskStem ++ "." ++ ("wip-" ++ Nat.repr pid),
      entries ++ [lockNode taskStem pid now])
  else
    none

structure CacheConfig where
  baseline_compression_level : Int
  optimized_compression_level : Int
  optimized_compression_usage_counter_threshold : Nat
  optimizing_compression_task_timeout : Int
  cleanup_interval : Int
  files_total_size_soft_limit : Nat
  files_count_soft_limit : Nat
  files_total_size_limit_percent_if_deleting : Nat
  files_count_limit_percent_if_deleting : Nat

/-- The `CacheEntry` classification built by `list_cache_contents`. -/
inductive CacheEntry where
  | recognized (path : String) (mtime : Int) (size : Nat)
  | unrecognized (path : String) (isDir : Bool)
deriving DecidableEq, Repr

/-- The sort order of `handle_on_cache_update`'s `sort_unstable_by`
comparator: `entryOrder a b` holds when the comparator does not place `a`
strictly after `b`. Recognized entries sort youngest (largest mtime) first;
Unrecognized sorts after every Recognized ("kind of infinity"). -/
def entryOrder : CacheEntry → CacheEntry → Prop
  | .recognized _ m1 _, .recognized _ m2 _ => m2 ≤ m1
  | .recognized _ _ _, .unrecognized _ _ => True
  | .unrecognized _ _, .recognized _ _ _ => False
  | .unrecognized _ _, .unrecognized _ _ => True

instance : DecidableRel entryOrder := fun a b => by
  cases a <;> cases b <;> simp only [entryOrder] <;> infer_instance

instance : IsTotal CacheEntry entryOrder :=
  ⟨fun a b => by cases a <;> cases b <;> simp [entryOrder] <;> omega⟩

instance : IsTrans CacheEntry entryOrder :=
  ⟨fun a b c hab hbc => by
    cases a <;> cases b <;> cases c <;> simp_all [entryOrder] <;> omega⟩

/-- The age sort of the cache index (the code's `sort_unstable_by`; a
stable sort is one admissible implementation of the unstable sort). -/
def sortEntries (l : List CacheEntry) : List CacheEntry :=
  List.insertionSort entryOrder l

/-- Size contributed by one entry to the running `total_size` (only
Recognized entries contribute). -/
def entrySize : CacheEntry → Nat
  | .recognized _ _ s => s
  | .unrecognized _ _ => 0

/-- Total size of the Recognized entries of an index. -/
def recSizes (l : List CacheEntry) : Nat :=
  (l.map entrySize).sum

/-- `u64::checked_mul`: fails on overflow. -/
def checkedMul64 (a b : Nat) : Option Nat :=
  if a * b < 2 ^ 64 then some (a * b) else none

/-- The update of `start_delete_idx_if_deleting_recognized_items` performed
for the Recognized entry at index `idx` once `total2 = total_size + size`:
set it to `idx` when still unset and a low-water line is reached. -/
def nextCid (tsd fcd total2 idx : Nat) (cid : Option Nat) : Option Nat :=
  if cid = none ∧ (tsd ≤ total2 ∨ fcd ≤ idx + 1) then some idx else cid

/-- The cut-finding loop of `handle_on_cache_update` (lines 350-369):
walks the sorted index accumulating `total` (= `total_size`) with current
index `idx` and `cid` (= `start_delete_idx_if_deleting_recognized_items`),
and returns `start_delete_idx`. -/
def sweepCut (ts fc tsd fcd : Nat) : List CacheEntry → Nat → Nat → Option Nat → Option Nat
  | [], _, _, _ => none
  | .unrecognized _ _ :: _, idx, _, _ => some idx
  | .recognized _ _ size :: rest, idx, total, cid =>
    if ts ≤ total + size ∨ fc ≤ idx + 1 then
      nextCid tsd fcd (total + size) idx cid
    else
      sweepCut ts fc tsd fcd rest (idx + 1) (total + size)
        (nextCid tsd fcd (total + size) idx cid)

/-- The sweep stage of `handle_on_cache_update` (entered once the cleanup
lock is held): sort the index, compute the two-tier quotas
(`checked_mul(..).unwrap() / 100`, `none` modelling the overflow panic),
find the cut and split the index into (retained, deleted). -/
def handle_on_cache_update_sweep (cfg : CacheConfig) (index : List CacheEntry) :
    Option (List CacheEntry × List CacheEntry) :=
  match checkedMul64 cfg.files_total_size_soft_limit
          cfg.files_total_size_limit_percent_if_deleting,
        checkedMul64 cfg.files_count_soft_limit
          cfg.files_count_limit_percent_if_deleting with
  | some tslMul, some fclMul =>
    match sweepCut cfg.files_total_size_soft_limit cfg.files_count_soft_limit
        (tslMul / 100) (fclMul / 100) (sortEntries index) 0 0 none with
    | none => some (sortEntries index, [])
    | some i => some ((sortEntries index).take i, (sortEntries index).drop i)
  | _, _ => none

def isCacheCandidate (f : FileMeta) : Bool :=
  f.ext == none || f.ext == some "stats"

/-- Lookup of `cache_files.get(&path.with_extension(""))`: the artifact
sibling of a stats file, by stem. -/
def findArtifact (cacheFiles : List FileMeta) (stem : String) : Option FileMeta :=
  cacheFiles.find? fun g => g.stem == stem && g.ext == none

/-- Lookup of `cache_files.get(&path.with_extension("stats"))`: the stats
sibling of an artifact, by stem. -/
def findStats (cacheFiles : List FileMeta) (stem : String) : Option FileMeta :=
  cacheFiles.find? fun g => g.stem == stem && g.ext == some "stats"

/-- The pairing phase of `list_cache_contents` (lines 541-613): associate
each artifact with its stats sibling and classify. Mirrors the code's
fallback chain: module metadata failure condemns both files; a stats
mtime failure condemns the stats file (pushing it once more if the module
mtime then also fails, exactly as the nested `add_unrecognized_and!`
does) but falls back to the module's own mtime for the Recognized entry. -/
def pairEntries (cacheFiles : List FileMeta) : List CacheEntry :=
  cacheFiles.flatMap fun f =>
    match f.ext with
    | some _ =>
      match findArtifact cacheFiles f.stem with
      | some _ => []
      | none => [CacheEntry.unrecognized f.path false]
    | none =>
      match findStats cacheFiles f.stem with
      | some g =>
        match f.meta with
        | none => [CacheEntry.unrecognized g.path false, CacheEntry.unrecognized f.path false]
        | some am =>
          match g.meta.bind Meta.mtime with
          | some smt => [CacheEntry.recognized f.path smt am.len]
          | none =>
            match am.mtime with
            | some mmt =>
              [CacheEntry.unrecognized g.path false, CacheEntry.recognized f.path mmt am.len]
            | none =>
              [CacheEntry.unrecognized g.path false, CacheEntry.unrecognized g.path false,
               CacheEntry.unrecognized f.path false]
      | none =>
        match f.meta.bind fun md => md.mtime.map fun mt => (md, mt) with
        | some (md, mt) => [CacheEntry.recognized f.path mt md.len]
        | none => [CacheEntry.unrecognized f.path false]

/-- Scan of a depth-2 (bucket) directory listing: files with any other
extension are assumed to be wip locks — Unrecognized when expired,
skipped when not; depth-2 directories are Unrecognized; cache candidates
go through the pairing phase. -/
def scanBucket (cfg : CacheConfig) (now : Int) (entries : List Node) : List CacheEntry :=
  (entries.flatMap fun n =>
    match n with
    | .dir p _ _ => [CacheEntry.unrecognized p true]
    | .file f =>
      if isCacheCandidate f then []
      else if is_fs_lock_expired (fileMtime f) now
          cfg.optimizing_compression_task_timeout then
        [CacheEntry.unrecognized f.path false]
      else []) ++
  pairEntries (entries.filterMap fun n =>
    match n with
    | .file f => if isCacheCandidate f then some f else none
    | .dir _ _ _ => none)

/-- Scan of a depth-1 (shard) directory listing: directories recurse into
the bucket scan (an unreadable one is Unrecognized), files are
Unrecognized. -/
def scanShard (cfg : CacheConfig) (now : Int) (entries : List Node) : List CacheEntry :=
  entries.flatMap fun n =>
    match n with
    | .dir p true sub => scanBucket cfg now sub
    | .dir p false _ => [CacheEntry.unrecognized p true]
    | .file f => [CacheEntry.unrecognized f.path false]

/-- Embedding of `list_cache_contents()` on the cache root listing: level-0
files are Unrecognized except an unexpired `.cleanup.*` sweep lock (which
is skipped); directories recurse through shard/bucket levels. Per-entry
`read_dir` iterator errors (silently skipped files) are not modelled. -/
def list_cache_contents (cfg : CacheConfig) (now : Int) (root : List Node) :
    List CacheEntry :=
  root.flatMap fun n =>
    match n with
    | .dir p true sub => scanShard cfg now sub
    | .dir p false _ => [CacheEntry.unrecognized p true]
    | .file f =>
      if f.stem == ".cleanup" then
        match f.ext with
        | some _ =>
          if is_fs_lock_expired (fileMtime f) now cfg.cleanup_interval then
            [CacheEntry.unrecognized f.path false]
          else []
        | none => [CacheEntry.unrecognized f.path false]
      else [CacheEntry.unrecognized f.path false]

/-- Rust `Path::file_name()` on a path given as components: the last
component, unless there is none or it is `..`. -/
def fileName (p : List String) : Option String :=
  match p.getLast? with
  | none => none
  | some c => if c = ".." then none else some c

/-- Result of one `handle_on_cache_update` run: whether the sweep stage
ran, and the (retained, deleted) split it produced. -/
structure UpdateOutcome where
  swept : Bool
  retained : List CacheEntry
  deleted : List CacheEntry
deriving DecidableEq, Repr

/-- Embedding of `handle_on_cache_update(path)`: `none` models a panic —
either `.expect("Expected valid cache file name")` on a path without a
file name, or a quota `checked_mul(..).unwrap()` overflow. Otherwise the
handler writes the stats file (best-effort `fs_write_atomic`, result
ignored and not tracked), tries to acquire the `.cleanup` sweep lock over
the root listing, and on success scans (the listing now holding the fresh
lock file) and sweeps. -/
def handle_on_cache_update_model (cfg : CacheConfig) (root : List Node)
    (path : List String) (pid : Nat) (now : Int) (createOk : Bool) :
    Option UpdateOutcome :=
  match fileName path with
  | none => none
  | some _ =>
    match acquire_task_fs_lock root ".cleanup" pid now cfg.cleanup_interval createOk with
    | none => some ⟨false, [], []⟩
    | some (_, root2) =>
      match handle_on_cache_update_sweep cfg (list_cache_contents cfg now root2) with
      | none => none
      | some (r, d) => some ⟨true, r, d⟩

/-- The per-artifact statistics record. `usages` is a `u64`,
`compression_level` (serialized as `optimized-compression`) an `i32`. -/
structure ModuleCacheStatistics where
  usages : Nat
  compression_level : Int
deriving DecidableEq, Repr

/-- `ModuleCacheStatistics::default()`. -/
def defaultStats (cfg : CacheConfig) : ModuleCacheStatistics :=
  ⟨0, cfg.baseline_compression_level⟩

/-- Step 1 of `handle_on_cache_get`: the stats read from disk (default if
absent or unparsable) with the usage counter incremented. -/
def bumpStats (cfg : CacheConfig) (stored : Option ModuleCacheStatistics) :
    ModuleCacheStatistics :=
  ⟨(stored.getD (defaultStats cfg)).usages + 1,
   (stored.getD (defaultStats cfg)).compression_level⟩

/-- Oracle inputs for one `handle_on_cache_get` run: results of each
fallible filesystem / zstd operation, in program order. -/
structure GetEnv where
  storedStats : Option ModuleCacheStatistics
  statsWriteOk : Bool
  dirEntries : List Node
  pid : Nat
  now : Int
  createOk : Bool
  artifactBytes : List Nat
  readOk : Bool
  decodeResult : Option (List Nat)
  encodeResult : Option (List Nat)
  writeLockOk : Bool
  renameOk : Bool
  reReadStats : Option ModuleCacheStatistics

/-- Observable effects of one `handle_on_cache_get` run. -/
structure GetTrace where
  writtenStats : ModuleCacheStatistics
  lockAttempted : Bool
  lockAcquired : Bool
  artifact : List Nat
  renamed : Bool
  postStatsWrite : Option ModuleCacheStatistics
deriving DecidableEq, Repr

/-- Embedding of `handle_on_cache_get(path)` after the file-name
extraction: read stats (defaulting), bump the counter, write the stats
file (return on failure), return unless recompression is due, acquire the
per-artifact wip lock, run the read → decode → encode → write-lock →
rename pipeline (any failure aborts, leaving the artifact unchanged), and
after a committed rename re-read the stats file, writing the optimized
level back only when the re-read succeeds with a lower level. -/
def handle_on_cache_get (cfg : CacheConfig) (stem : String) (env : GetEnv) : GetTrace :=
  if env.statsWriteOk = false then
    ⟨bumpStats cfg env.storedStats, false, false, env.artifactBytes, false, none⟩
  else if cfg.optimized_compression_level ≤
        (bumpStats cfg env.storedStats).compression_level
      ∨ (bumpStats cfg env.storedStats).usages <
        cfg.optimized_compression_usage_counter_threshold then
    ⟨bumpStats cfg env.storedStats, false, false, env.artifactBytes, false, none⟩
  else
    match acquire_task_fs_lock env.dirEntries stem env.pid env.now
        cfg.optimizing_compression_task_timeout env.createOk with
    | none => ⟨bumpStats cfg env.storedStats, true, false, env.artifactBytes, false, none⟩
    | some _ =>
      match ((if env.readOk then some env.artifactBytes else none).bind
          fun _ => env.decodeResult).bind fun _ => env.encodeResult with
      | none =>
        ⟨bumpStats cfg env.storedStats, true, true, env.artifactBytes, false, none⟩
      | some recompressed =>
        if env.writeLockOk = false then
          ⟨bumpStats cfg env.storedStats, true, true, env.artifactBytes, false, none⟩
        else if env.renameOk = false then
          ⟨bumpStats cfg env.storedStats, true, true, env.artifactBytes, false, none⟩
        else
          match env.reReadStats with
          | none =>
            ⟨bumpStats cfg env.storedStats, true, true, recompressed, true, none⟩
          | some ns =>
            if cfg.optimized_compression_level ≤ ns.compression_level then
              ⟨bumpStats cfg env.storedStats, true, true, recompressed, true, none⟩
            else
              ⟨bumpStats cfg env.storedStats, true, true, recompressed, true,
                some ⟨ns.usages, cfg.optimized_compression_level⟩⟩

/-- Split at the last `.` of a character list, when there is one:
`(before, after)` with the dot dropped. -/
def splitAtLastDot : List Char → Option (List Char × List Char)
  | [] => none
  | c :: rest =>
    match splitAtLastDot rest with
    | some (s, e) => some (c :: s, e)
    | none => if c = '.' then some ([], rest) else none

/-- Rust `file_stem()` / `extension()` of a file NAME: the extension is
what follows the last `.`, except that a name's leading character never
begins an extension (hidden files such as `.cleanup` have no extension;
a trailing dot gives the empty extension, as in Rust). -/
def rustFileStemExt (name : String) : String × Option String :=
  match name.data with
  | [] => (name, none)
  | c :: rest =>
    match splitAtLastDot rest with
    | none => (name, none)
    | some (s, e) => (⟨c :: s⟩, some ⟨e⟩)

/-- `handle_on_cache_get` at the path level. `none` models a panic, of
which this handler has two: `path.file_name().unwrap().to_str().unwrap()`
on a path without a valid file name, and — reached only once the step-1
stats write succeeded and the recompression guard passed —
`assert!(task_path.extension().is_none())` at the head of
`acquire_task_fs_lock`, which fires for every dotted artifact name
(`rustFileStemExt` yields an extension). On such a name the two early
returns of steps 1-2 still complete normally, since they never inspect
the task path's extension. -/
def handle_on_cache_get_model (cfg : CacheConfig) (path : List String)
    (env : GetEnv) : Option GetTrace :=
  match fileName path with
  | none => none
  | some name =>
    match rustFileStemExt name with
    | (stem, none) => some (handle_on_cache_get cfg stem env)
    | (_, some _) =>
      if env.statsWriteOk = false then
        some ⟨bumpStats cfg env.storedStats, false, false, env.artifactBytes,
          false, none⟩
      else if cfg.optimized_compression_level ≤
            (bumpStats cfg env.storedStats).compression_level
          ∨ (bumpStats cfg env.storedStats).usages <
            cfg.optimized_compression_usage_counter_threshold then
        some ⟨bumpStats cfg env.storedStats, false, false, env.artifactBytes,
          false, none⟩
      else none

/-- Serialization of a stats record by `write_stats_file`. The external
TOML text layer is modelled, per the interface contract, as an ordered
key/value document with integer values; serialization of this plain
two-field record cannot fail, and the atomic write itself is the external
`fs_write_atomic` primitive. -/
def write_stats_file (s : ModuleCacheStatistics) : List (String × Int) :=
  [("usages", (s.usages : Int)), ("optimized-compression", s.compression_level)]

/-- Key lookup in a parsed key/value document. -/
def lookupKey (doc : List (String × Int)) (k : String) : Option Int :=
  (doc.find? fun e => e.1 == k).map fun e => e.2

/-- Parse of a stats document: both keys must be present with in-range
values (`u64`: below 2^64, and `i32`: within ±2^31); unknown keys are
tolerated; any failure yields `none`, never an error. -/
def parseStats (doc : List (String × Int)) : Option ModuleCacheStatistics :=
  match lookupKey doc "usages", lookupKey doc "optimized-compression" with
  | some u, some l =>
    if 0 ≤ u ∧ u < 18446744073709551616 ∧
        -2147483648 ≤ l ∧ l < 2147483648 then
      some ⟨u.toNat, l⟩
    else none
  | _, _ => none

/-- `read_stats_file`: an unreadable file (`none` contents) or any parse
failure yields `none`. -/
def read_stats_file (contents : Option (List (String × Int))) :
    Option ModuleCacheStatistics :=
  match contents with
  | none => none
  | some doc => parseStats doc

theorem isPrefixOf_append_self (l t : List Char) : l.isPrefixOf (l ++ t) = true := by
  induction l with
  | nil => simp [List.isPrefixOf]
  | cons a as ih => simp [List.isPrefixOf, ih]

theorem starts_with_append (s t : String) : starts_with (s ++ t) s = true := by
  unfold starts_with
  rw [String.data_append]
  exact isPrefixOf_append_self s.data t.data

theorem acquire_task_fs_lock_eq_some {entries : List Node} {taskStem : String}
    {pid : Nat} {now timeout : Int} {createOk : Bool} {p : String} {entries2 : List Node}
    (h : acquire_task_fs_lock entries taskStem pid now timeout createOk =
      some (p, entries2)) :
    hasUnexpiredWipLock entries taskStem now timeout = false ∧
      createOk = true ∧ entries2 = entries ++ [lockNode taskStem pid now] := by
  unfold acquire_task_fs_lock at h
  by_cases h1 : hasUnexpiredWipLock entries taskStem now timeout
  · rw [if_pos h1] at h
    exact absurd h (by simp)
  · rw [if_neg h1] at h
    by_cases h2 : lockNameTaken entries taskStem ("wip-" ++ Nat.repr pid)
    · rw [if_pos h2] at h
      exact absurd h (by simp)
    · rw [if_neg h2] at h
      cases createOk with
      | false => exact absurd h (by simp)
      | true =>
        rw [if_pos rfl] at h
        simp only [Option.some.injEq, Prod.mk.injEq] at h
        exact ⟨by simpa using h1, rfl, h.2.symm⟩

/-- C1: (a) `acquire_task_fs_lock` returns absent whenever some sibling file
with the same stem and a `wip-` extension is unexpired; (b) when every such
sibling is expired it attempts create-new of `<task>.wip-<pid>` and returns
that path exactly when creation succeeds; (c) hence a second sequential call
made while the first call's lock is unexpired returns absent. -/
theorem C1_acquire_task_fs_lock_spec (entries : List Node) (taskStem : String)
    (pid : Nat) (now timeout : Int) (createOk : Bool) :
    ((∃ f : FileMeta, Node.file f ∈ entries ∧ f.stem = taskStem ∧
        ∃ e, f.ext = some e ∧ starts_with e "wip-" = true ∧
          is_fs_lock_expired (fileMtime f) now timeout = false) →
      acquire_task_fs_lock entries taskStem pid now timeout createOk = none) ∧
    ((∀ f : FileMeta, Node.file f ∈ entries → f.stem = taskStem →
        ∀ e, f.ext = some e → starts_with e "wip-" = true →
          is_fs_lock_expired (fileMtime f) now timeout = true) →
      acquire_task_fs_lock entries taskStem pid now timeout createOk =
        if createOk && !lockNameTaken entries taskStem ("wip-" ++ Nat.repr pid) then
          some (taskStem ++ "." ++ ("wip-" ++ Nat.repr pid),
            entries ++ [lockNode taskStem pid now])
        else none) ∧
    (∀ (p : String) (entries2 : List Node) (pid2 : Nat) (now2 : Int) (createOk2 : Bool),
      acquire_task_fs_lock entries taskStem pid now timeout createOk = some (p, entries2) →
      now ≤ now2 → now2 - now < timeout →
      acquire_task_fs_lock entries2 taskStem pid2 now2 timeout createOk2 = none) := by
  refine ⟨?_, ?_, ?_⟩
  · rintro ⟨f, hmem, hstem, e, hext, hsw, hexp⟩
    have hany : hasUnexpiredWipLock entries taskStem now timeout = true := by
      unfold hasUnexpiredWipLock
      rw [List.any_eq_true]
      exact ⟨Node.file f, hmem, by simp [hstem, hext, hsw, hexp]⟩
    unfold acquire_task_fs_lock
    rw [if_pos hany]
  · intro hall
    have hany : ¬ hasUnexpiredWipLock entries taskStem now timeout = true := by
      unfold hasUnexpiredWipLock
      rw [List.any_eq_true]
      rintro ⟨n, hn, hpred⟩
      match n with
      | .dir _ _ _ => exact absurd hpred (by simp)
      | .file f =>
        simp only [Bool.and_eq_true, beq_iff_eq] at hpred
        obtain ⟨hstem, hm⟩ := hpred
        match hext : f.ext with
        | none => rw [hext] at hm; exact absurd hm (by simp)
        | some e =>
          rw [hext] at hm
          simp only [Bool.and_eq_true, Bool.not_eq_true'] at hm
          have := hall f hn hstem e hext hm.1
          rw [this] at hm
          exact absurd hm.2 (by simp)
    unfold acquire_task_fs_lock
    rw [if_neg hany]
    by_cases ht : lockNameTaken entries taskStem ("wip-" ++ Nat.repr pid)
    · rw [if_pos ht, ht]
      simp
    · rw [if_neg ht, (by simpa using ht : lockNameTaken entries taskStem
        ("wip-" ++ Nat.repr pid) = false)]
      cases createOk <;> simp
  · intro p entries2 pid2 now2 createOk2 h hle hlt
    obtain ⟨-, -, hentries2⟩ := acquire_task_fs_lock_eq_some h
    have hany : hasUnexpiredWipLock entries2 taskStem now2 timeout = true := by
      unfold hasUnexpiredWipLock
      rw [List.any_eq_true]
      refine ⟨lockNode taskStem pid now, ?_, ?_⟩
      · rw [hentries2]
        exact List.mem_append_right _ (by simp [lockNode])
      · have hnle : ¬ timeout ≤ now2 - now := by omega
        simp [lockNode, fileMtime, starts_with_append, is_fs_lock_expired, hle, hnle]
    unfold acquire_task_fs_lock
    rw [if_pos hany]

/-- Witness for C1: in a directory holding an expired lock (`a.wip-7`, 1000
seconds old with a 60-second timeout), the call succeeds and returns
`a.wip-42`; a second call 10 seconds later, from pid 43, is refused. -/
theorem C1_acquire_task_fs_lock_witness :
    acquire_task_fs_lock
        [Node.file ⟨"a.wip-7", "a", some "wip-7", some ⟨some 0, 0⟩⟩] "a" 42 1000 60 true =
      some ("a.wip-42",
        [Node.file ⟨"a.wip-7", "a", some "wip-7", some ⟨some 0, 0⟩⟩,
         lockNode "a" 42 1000]) ∧
    acquire_task_fs_lock
        [Node.file ⟨"a.wip-7", "a", some "wip-7", some ⟨some 0, 0⟩⟩,
         lockNode "a" 42 1000] "a" 43 1010 60 true = none := by
  have h := C1_acquire_task_fs_lock_spec
    [Node.file ⟨"a.wip-7", "a", some "wip-7", some ⟨some 0, 0⟩⟩] "a" 42 1000 60 true
  have h1 := h.2.1 (by
    intro f hf hstem e hext hsw
    simp only [List.mem_singleton] at hf
    injection hf with hf
    subst hf
    decide)
  have h1' : acquire_task_fs_lock
      [Node.file ⟨"a.wip-7", "a", some "wip-7", some ⟨some 0, 0⟩⟩] "a" 42 1000 60 true =
      some ("a.wip-42",
        [Node.file ⟨"a.wip-7", "a", some "wip-7", some ⟨some 0, 0⟩⟩,
         lockNode "a" 42 1000]) := by
    rw [h1]
    rfl
  refine ⟨h1', ?_⟩
  exact h.2.2 "a.wip-42"
    [Node.file ⟨"a.wip-7", "a", some "wip-7", some ⟨some 0, 0⟩⟩, lockNode "a" 42 1000]
    43 1010 true h1' (by decide) (by decide)

/-- The configuration values the worker consumes (`cache_config::*`),
read-only at runtime. -/
theorem recSizes_append (a b : List CacheEntry) :
    recSizes (a ++ b) = recSizes a + recSizes b := by
  simp [recSizes]

theorem recSizes_perm {a b : List CacheEntry} (h : a.Perm b) :
    recSizes a = recSizes b :=
  (h.map entrySize).sum_eq

theorem recSizes_sortEntries (l : List CacheEntry) :
    recSizes (sortEntries l) = recSizes l :=
  recSizes_perm (List.perm_insertionSort entryOrder l)

theorem recSizes_of_sorted_unrec {p : String} {d : Bool} {rest : List CacheEntry}
    (h : List.Sorted entryOrder (CacheEntry.unrecognized p d :: rest)) :
    recSizes (CacheEntry.unrecognized p d :: rest) = 0 := by
  rw [List.sorted_cons] at h
  have hall : ∀ x ∈ rest, entrySize x = 0 := by
    intro x hx
    match x with
    | .unrecognized _ _ => rfl
    | .recognized q m s => exact absurd (h.1 _ hx) (by simp [entryOrder])
  have : recSizes rest = 0 := by
    apply List.sum_eq_zero
    intro y hy
    obtain ⟨x, hx, rfl⟩ := List.mem_map.mp hy
    exact hall x hx
  simp [recSizes, entrySize] at this ⊢
  exact this

theorem nextCid_eq_none {tsd fcd t2 idx : Nat} {cid : Option Nat}
    (h : nextCid tsd fcd t2 idx cid = none) :
    cid = none ∧ t2 < tsd ∧ idx + 1 < fcd := by
  unfold nextCid at h
  by_cases hif : cid = none ∧ (tsd ≤ t2 ∨ fcd ≤ idx + 1)
  · rw [if_pos hif] at h
    cases h
  · rw [if_neg hif] at h
    refine ⟨h, ?_⟩
    push_neg at hif
    have := hif h
    push_neg at this
    exact this

theorem nextCid_eq_some {tsd fcd t2 idx : Nat} {cid : Option Nat} {c : Nat}
    (h : nextCid tsd fcd t2 idx cid = some c) :
    c = idx ∧ cid = none ∨ cid = some c := by
  unfold nextCid at h
  by_cases hif : cid = none ∧ (tsd ≤ t2 ∨ fcd ≤ idx + 1)
  · rw [if_pos hif] at h
    injection h with h
    exact Or.inl ⟨h.symm, hif.1⟩
  · rw [if_neg hif] at h
    exact Or.inr h

/-- Main invariant of the cut-finding loop: walking a sorted suffix `l` of
`sorted` (with `pre` the already-walked prefix) under the stated
accumulator invariants, the retained prefix determined by the returned cut
has recognized size at most `tsd` — provided the whole index is at or past
the hard size limit `ts`. -/
theorem sweepCut_bound (ts fc tsd fcd : Nat) (htsd : tsd ≤ ts) (hfcd : fcd ≤ fc)
    (sorted : List CacheEntry) (hS : ts ≤ recSizes sorted) :
    ∀ (l pre : List CacheEntry) (total : Nat) (cid : Option Nat),
      sorted = pre ++ l →
      total = recSizes pre →
      List.Sorted entryOrder l →
      (∀ c, cid = some c → recSizes (sorted.take c) ≤ tsd) →
      (cid = none → total ≤ tsd) →
      (total < ts ∨ pre = []) →
      recSizes (match sweepCut ts fc tsd fcd l pre.length total cid with
        | none => sorted
        | some c => sorted.take c) ≤ tsd := by
  intro l
  induction l with
  | nil =>
    intro pre total cid hsp htot hsort hcid hnone hpfx
    rw [List.append_nil] at hsp
    subst hsp
    rcases hpfx with hlt | rfl
    · omega
    · simp only [sweepCut]
      simp [recSizes]
  | cons e rest ih =>
    intro pre total cid hsp htot hsort hcid hnone hpfx
    have htake : sorted.take pre.length = pre := by
      rw [hsp]
      exact List.take_left pre _
    match e with
    | .unrecognized p d =>
      have hz : recSizes (CacheEntry.unrecognized p d :: rest) = 0 :=
        recSizes_of_sorted_unrec hsort
      have htotS : recSizes sorted = total := by
        rw [hsp, recSizes_append, hz, htot]
        omega
      simp only [sweepCut]
      rw [htake, ← htot]
      rcases hpfx with hlt | rfl
      · omega
      · have : total = 0 := by
          simp [recSizes] at htot
          exact htot
        omega
    | .recognized p m s =>
      simp only [sweepCut]
      have hcid2 : ∀ c, nextCid tsd fcd (total + s) pre.length cid = some c →
          recSizes (sorted.take c) ≤ tsd := by
        intro c hc
        rcases nextCid_eq_some hc with ⟨rfl, hcn⟩ | hcs
        · rw [htake, ← htot]
          exact hnone hcn
        · exact hcid c hcs
      by_cases hhard : ts ≤ total + s ∨ fc ≤ pre.length + 1
      · rw [if_pos hhard]
        cases hc2 : nextCid tsd fcd (total + s) pre.length cid with
        | some c => exact hcid2 c hc2
        | none =>
          exfalso
          obtain ⟨-, h1, h2⟩ := nextCid_eq_none hc2
          omega
      · rw [if_neg hhard]
        push_neg at hhard
        have hres := ih (pre ++ [CacheEntry.recognized p m s]) (total + s)
          (nextCid tsd fcd (total + s) pre.length cid)
          (by rw [hsp, List.append_assoc]; rfl)
          (by rw [recSizes_append, ← htot]; simp [recSizes, entrySize])
          ((List.sorted_cons.mp hsort).2)
          hcid2
          (by
            intro hc2
            obtain ⟨-, h1, -⟩ := nextCid_eq_none hc2
            omega)
          (Or.inl hhard.1)
        simpa [List.length_append] using hres

/-- Is a depth-2 file a cache candidate (no extension, or extension
`stats`) deferred to the pairing phase? -/
theorem checkedMul64_eq_some {a b c : Nat} (h : checkedMul64 a b = some c) :
    c = a * b := by
  unfold checkedMul64 at h
  by_cases hif : a * b < 2 ^ 64
  · rw [if_pos hif] at h
    injection h with h
    exact h.symm
  · rw [if_neg hif] at h
    cases h

/-- C4: whenever the pre-sweep total recognized size is at least
`files_total_size_soft_limit`, a non-panicking sweep retains a total
recognized size of at most
`files_total_size_soft_limit * files_total_size_limit_percent_if_deleting / 100`
(assuming the configured percentages are at most 100, all deletions
succeed, and no concurrent writes — the model deletes exactly the
computed suffix). -/
theorem C4_sweep_quota_convergence (cfg : CacheConfig)
    (index retained deleted : List CacheEntry)
    (hps : cfg.files_total_size_limit_percent_if_deleting ≤ 100)
    (hpn : cfg.files_count_limit_percent_if_deleting ≤ 100)
    (hS : cfg.files_total_size_soft_limit ≤ recSizes index)
    (h : handle_on_cache_update_sweep cfg index = some (retained, deleted)) :
    recSizes retained ≤
      cfg.files_total_size_soft_limit *
        cfg.files_total_size_limit_percent_if_deleting / 100 := by
  unfold handle_on_cache_update_sweep at h
  split at h
  next tslMul fclMul hm1 hm2 =>
    obtain rfl := checkedMul64_eq_some hm1
    obtain rfl := checkedMul64_eq_some hm2
    have htsd : cfg.files_total_size_soft_limit *
        cfg.files_total_size_limit_percent_if_deleting / 100 ≤
        cfg.files_total_size_soft_limit := by
      calc cfg.files_total_size_soft_limit *
          cfg.files_total_size_limit_percent_if_deleting / 100 ≤
          cfg.files_total_size_soft_limit * 100 / 100 := by gcongr
        _ = cfg.files_total_size_soft_limit := Nat.mul_div_cancel _ (by norm_num)
    have hfcd : cfg.files_count_soft_limit *
        cfg.files_count_limit_percent_if_deleting / 100 ≤
        cfg.files_count_soft_limit := by
      calc cfg.files_count_soft_limit *
          cfg.files_count_limit_percent_if_deleting / 100 ≤
          cfg.files_count_soft_limit * 100 / 100 := by gcongr
        _ = cfg.files_count_soft_limit := Nat.mul_div_cancel _ (by norm_num)
    have hS' : cfg.files_total_size_soft_limit ≤ recSizes (sortEntries index) := by
      rwa [recSizes_sortEntries]
    have hmain := sweepCut_bound cfg.files_total_size_soft_limit
      cfg.files_count_soft_limit
      (cfg.files_total_size_soft_limit *
        cfg.files_total_size_limit_percent_if_deleting / 100)
      (cfg.files_count_soft_limit *
        cfg.files_count_limit_percent_if_deleting / 100)
      htsd hfcd (sortEntries index) hS' (sortEntries index) [] 0 none
      rfl rfl (List.sorted_insertionSort entryOrder index)
      (fun c hc => absurd hc (by simp))
      (fun _ => Nat.zero_le _)
      (Or.inr rfl)
    simp only [List.length_nil] at hmain
    split at h
    next hcut =>
      rw [hcut] at hmain
      simp only [Option.some.injEq, Prod.mk.injEq] at h
      rw [← h.1]
      exact hmain
    next i hcut =>
      rw [hcut] at hmain
      simp only [Option.some.injEq, Prod.mk.injEq] at h
      rw [← h.1]
      exact hmain
  next =>
    exact Option.noConfusion h

/-- Witness for C4: a cache of two artifacts of sizes 4 and 8 with
`S_soft = 10`, `p_s = 50` (`S_low = 5`) sweeps down to the single
youngest artifact of size 4 ≤ 5. -/
theorem C4_sweep_quota_convergence_witness :
    handle_on_cache_update_sweep
        ⟨1, 19, 5, 60, 3600, 10, 1000, 50, 50⟩
        [CacheEntry.recognized "a" 1 8, CacheEntry.recognized "b" 2 4] =
      some ([CacheEntry.recognized "b" 2 4], [CacheEntry.recognized "a" 1 8]) ∧
    recSizes [CacheEntry.recognized "b" 2 4] ≤ 10 * 50 / 100 :=
  ⟨by decide, C4_sweep_quota_convergence
    ⟨1, 19, 5, 60, 3600, 10, 1000, 50, 50⟩
    [CacheEntry.recognized "a" 1 8, CacheEntry.recognized "b" 2 4]
    [CacheEntry.recognized "b" 2 4] [CacheEntry.recognized "a" 1 8]
    (by decide) (by decide) (by decide) (by decide)⟩

/-- C9: in a bucket holding an artifact and its stats sibling, when the
stats file's metadata or mtime cannot be read while the artifact's
metadata and mtime can, the scan classifies the stats file Unrecognized
and still emits the artifact Recognized with the artifact's own mtime;
when the artifact's metadata (or, the stats being unreadable too, its
mtime) is unreadable, both files come out Unrecognized. -/
theorem C9_scanner_stats_fallback (cfg : CacheConfig) (now : Int)
    (pa ps2 st : String) (am sm : Option Meta) :
    (∀ amt alen, am = some ⟨some amt, alen⟩ → sm.bind Meta.mtime = none →
      scanBucket cfg now
          [Node.file ⟨pa, st, none, am⟩, Node.file ⟨ps2, st, some "stats", sm⟩] =
        [CacheEntry.unrecognized ps2 false, CacheEntry.recognized pa amt alen]) ∧
    (am = none →
      scanBucket cfg now
          [Node.file ⟨pa, st, none, am⟩, Node.file ⟨ps2, st, some "stats", sm⟩] =
        [CacheEntry.unrecognized ps2 false, CacheEntry.unrecognized pa false]) ∧
    (∀ alen, am = some ⟨none, alen⟩ → sm.bind Meta.mtime = none →
      scanBucket cfg now
          [Node.file ⟨pa, st, none, am⟩, Node.file ⟨ps2, st, some "stats", sm⟩] =
        [CacheEntry.unrecognized ps2 false, CacheEntry.unrecognized ps2 false,
         CacheEntry.unrecognized pa false]) := by
  refine ⟨?_, ?_, ?_⟩
  · rintro amt alen rfl hsm
    simp [scanBucket, pairEntries, findStats, findArtifact, isCacheCandidate, hsm]
  · rintro rfl
    simp [scanBucket, pairEntries, findStats, findArtifact, isCacheCandidate]
  · rintro alen rfl hsm
    simp [scanBucket, pairEntries, findStats, findArtifact, isCacheCandidate, hsm]

/-- Witness for C9: artifact `m` (mtime 5, size 9) with a stats sibling
whose mtime is unreadable: the stats file is condemned, the artifact is
kept with mtime 5. -/
theorem C9_scanner_stats_fallback_witness :
    scanBucket ⟨1, 19, 5, 60, 3600, 100, 100, 50, 50⟩ 0
        [Node.file ⟨"m", "m", none, some ⟨some 5, 9⟩⟩,
         Node.file ⟨"m.stats", "m", some "stats", some ⟨none, 0⟩⟩] =
      [CacheEntry.unrecognized "m.stats" false, CacheEntry.recognized "m" 5 9] :=
  (C9_scanner_stats_fallback ⟨1, 19, 5, 60, 3600, 100, 100, 50, 50⟩ 0
    "m" "m.stats" "m" (some ⟨some 5, 9⟩) (some ⟨none, 0⟩)).1 5 9 rfl rfl

/-- Counterexample to C2: six artifacts with mtimes 1..6 and size 1 each,
`files_count_soft_limit = 5`, `files_count_limit_percent_if_deleting = 60`
(`N_low = 3`): the cut lands on the first index `i` with `i + 1 ≥ 3`,
i.e. `i = 2`, so the sweep deletes the artifacts with mtimes 4, 3, 2, 1 —
four deletions, not the claimed three — and retains only mtimes 6 and 5. -/
theorem C2_sweep_by_count_cex :
    handle_on_cache_update_model ⟨1, 19, 5, 3600, 3600, 1000000, 5, 60, 60⟩
        [Node.dir "s" true [Node.dir "b" true
          [Node.file ⟨"a6", "a6", none, some ⟨some 6, 1⟩⟩,
           Node.file ⟨"a5", "a5", none, some ⟨some 5, 1⟩⟩,
           Node.file ⟨"a4", "a4", none, some ⟨some 4, 1⟩⟩,
           Node.file ⟨"a3", "a3", none, some ⟨some 3, 1⟩⟩,
           Node.file ⟨"a2", "a2", none, some ⟨some 2, 1⟩⟩,
           Node.file ⟨"a1", "a1", none, some ⟨some 1, 1⟩⟩]]]
        ["s", "b", "a6"] 1 100 true =
      some ⟨true,
        [CacheEntry.recognized "a6" 6 1, CacheEntry.recognized "a5" 5 1],
        [CacheEntry.recognized "a4" 4 1, CacheEntry.recognized "a3" 3 1,
         CacheEntry.recognized "a2" 2 1, CacheEntry.recognized "a1" 1 1]⟩ := by
  decide

/-- C2 (amended): with `files_count_soft_limit = 5` and
`files_count_limit_percent_if_deleting = 60` (`N_low = 3`), on a cache of
exactly 6 recognized artifacts with strictly ordered mtimes t1 < … < t6
and total size below the size limits, a sweep that acquires the cleanup
lock deletes exactly the artifacts with mtimes t1, t2, t3 **and t4**, and
retains those with mtimes t5 and t6 (the cut index is the first `i` with
`i + 1 ≥ N_low`, and that entry is deleted too). -/
theorem C2_sweep_by_count_amended (bl opt : Int) (thr : Nat) (ot ci : Int)
    (ts ps : Nat) (t1 t2 t3 t4 t5 t6 : Int) (s1 s2 s3 s4 s5 s6 : Nat) (now : Int)
    (h12 : t1 < t2) (h23 : t2 < t3) (h34 : t3 < t4) (h45 : t4 < t5) (h56 : t5 < t6)
    (hci : 0 < ci) (hps : ps ≤ 100)
    (hov1 : ts * ps < 2 ^ 64)
    (hsum : s1 + s2 + s3 + s4 + s5 + s6 < ts * ps / 100) :
    handle_on_cache_update_model ⟨bl, opt, thr, ot, ci, ts, 5, ps, 60⟩
        [Node.dir "s" true [Node.dir "b" true
          [Node.file ⟨"a6", "a6", none, some ⟨some t6, s6⟩⟩,
           Node.file ⟨"a5", "a5", none, some ⟨some t5, s5⟩⟩,
           Node.file ⟨"a4", "a4", none, some ⟨some t4, s4⟩⟩,
           Node.file ⟨"a3", "a3", none, some ⟨some t3, s3⟩⟩,
           Node.file ⟨"a2", "a2", none, some ⟨some t2, s2⟩⟩,
           Node.file ⟨"a1", "a1", none, some ⟨some t1, s1⟩⟩]]]
        ["s", "b", "a6"] 1 now true =
      some ⟨true,
        [CacheEntry.recognized "a6" t6 s6, CacheEntry.recognized "a5" t5 s5],
        [CacheEntry.recognized "a4" t4 s4, CacheEntry.recognized "a3" t3 s3,
         CacheEntry.recognized "a2" t2 s2, CacheEntry.recognized "a1" t1 s1]⟩ := by
  have hts' : ts * ps / 100 ≤ ts := by
    calc ts * ps / 100 ≤ ts * 100 / 100 := by gcongr
      _ = ts := Nat.mul_div_cancel _ (by norm_num)
  have hacq : acquire_task_fs_lock
      [Node.dir "s" true [Node.dir "b" true
        [Node.file ⟨"a6", "a6", none, some ⟨some t6, s6⟩⟩,
         Node.file ⟨"a5", "a5", none, some ⟨some t5, s5⟩⟩,
         Node.file ⟨"a4", "a4", none, some ⟨some t4, s4⟩⟩,
         Node.file ⟨"a3", "a3", none, some ⟨some t3, s3⟩⟩,
         Node.file ⟨"a2", "a2", none, some ⟨some t2, s2⟩⟩,
         Node.file ⟨"a1", "a1", none, some ⟨some t1, s1⟩⟩]]]
      ".cleanup" 1 now ci true =
      some (".cleanup" ++ "." ++ ("wip-" ++ Nat.repr 1),
        [Node.dir "s" true [Node.dir "b" true
          [Node.file ⟨"a6", "a6", none, some ⟨some t6, s6⟩⟩,
           Node.file ⟨"a5", "a5", none, some ⟨some t5, s5⟩⟩,
           Node.file ⟨"a4", "a4", none, some ⟨some t4, s4⟩⟩,
           Node.file ⟨"a3", "a3", none, some ⟨some t3, s3⟩⟩,
           Node.file ⟨"a2", "a2", none, some ⟨some t2, s2⟩⟩,
           Node.file ⟨"a1", "a1", none, some ⟨some t1, s1⟩⟩]]] ++
        [lockNode ".cleanup" 1 now]) := rfl
  have hlock : is_fs_lock_expired (some now) now ci = false := by
    simp only [is_fs_lock_expired, le_refl, if_pos, sub_self]
    simp only [decide_eq_false_iff_not]
    omega
  have hscan : list_cache_contents ⟨bl, opt, thr, ot, ci, ts, 5, ps, 60⟩ now
      ([Node.dir "s" true [Node.dir "b" true
        [Node.file ⟨"a6", "a6", none, some ⟨some t6, s6⟩⟩,
         Node.file ⟨"a5", "a5", none, some ⟨some t5, s5⟩⟩,
         Node.file ⟨"a4", "a4", none, some ⟨some t4, s4⟩⟩,
         Node.file ⟨"a3", "a3", none, some ⟨some t3, s3⟩⟩,
         Node.file ⟨"a2", "a2", none, some ⟨some t2, s2⟩⟩,
         Node.file ⟨"a1", "a1", none, some ⟨some t1, s1⟩⟩]]] ++
       [lockNode ".cleanup" 1 now]) =
      [CacheEntry.recognized "a6" t6 s6, CacheEntry.recognized "a5" t5 s5,
       CacheEntry.recognized "a4" t4 s4, CacheEntry.recognized "a3" t3 s3,
       CacheEntry.recognized "a2" t2 s2, CacheEntry.recognized "a1" t1 s1] := by
    simp [list_cache_contents, scanShard, scanBucket, pairEntries, findStats,
      findArtifact, isCacheCandidate, fileMtime, lockNode, hlock]
  have hsort : sortEntries
      [CacheEntry.recognized "a6" t6 s6, CacheEntry.recognized "a5" t5 s5,
       CacheEntry.recognized "a4" t4 s4, CacheEntry.recognized "a3" t3 s3,
       CacheEntry.recognized "a2" t2 s2, CacheEntry.recognized "a1" t1 s1] =
      [CacheEntry.recognized "a6" t6 s6, CacheEntry.recognized "a5" t5 s5,
       CacheEntry.recognized "a4" t4 s4, CacheEntry.recognized "a3" t3 s3,
       CacheEntry.recognized "a2" t2 s2, CacheEntry.recognized "a1" t1 s1] := by
    unfold sortEntries
    refine List.Sorted.insertionSort_eq ?_
    simp [List.sorted_cons, entryOrder]
    omega
  have hn0 : nextCid (ts * ps / 100) 3 (0 + s6) 0 none = none := by
    unfold nextCid
    rw [if_neg (by rintro ⟨-, h | h⟩ <;> omega)]
  have hn1 : nextCid (ts * ps / 100) 3 (0 + s6 + s5) 1 none = none := by
    unfold nextCid
    rw [if_neg (by rintro ⟨-, h | h⟩ <;> omega)]
  have hn2 : nextCid (ts * ps / 100) 3 (0 + s6 + s5 + s4) 2 none = some 2 := by
    unfold nextCid
    rw [if_pos ⟨rfl, Or.inr (by omega)⟩]
  have hn3 : nextCid (ts * ps / 100) 3 (0 + s6 + s5 + s4 + s3) 3 (some 2) =
      some 2 := by
    unfold nextCid
    rw [if_neg (by simp)]
  have hn4 : nextCid (ts * ps / 100) 3 (0 + s6 + s5 + s4 + s3 + s2) 4 (some 2) =
      some 2 := by
    unfold nextCid
    rw [if_neg (by simp)]
  have hcut : sweepCut ts 5 (ts * ps / 100) 3
      [CacheEntry.recognized "a6" t6 s6, CacheEntry.recognized "a5" t5 s5,
       CacheEntry.recognized "a4" t4 s4, CacheEntry.recognized "a3" t3 s3,
       CacheEntry.recognized "a2" t2 s2, CacheEntry.recognized "a1" t1 s1]
      0 0 none = some 2 := by
    simp only [sweepCut]
    rw [hn0, if_neg (by rintro (h | h) <;> omega),
      hn1, if_neg (by rintro (h | h) <;> omega),
      hn2, if_neg (by rintro (h | h) <;> omega),
      hn3, if_neg (by rintro (h | h) <;> omega),
      hn4, if_pos (Or.inr (by omega))]
  have hm1 : checkedMul64 ts ps = some (ts * ps) := by
    unfold checkedMul64
    rw [if_pos hov1]
  have hm2 : checkedMul64 5 60 = some 300 := by decide
  have hsweep : handle_on_cache_update_sweep ⟨bl, opt, thr, ot, ci, ts, 5, ps, 60⟩
      [CacheEntry.recognized "a6" t6 s6, CacheEntry.recognized "a5" t5 s5,
       CacheEntry.recognized "a4" t4 s4, CacheEntry.recognized "a3" t3 s3,
       CacheEntry.recognized "a2" t2 s2, CacheEntry.recognized "a1" t1 s1] =
      some ([CacheEntry.recognized "a6" t6 s6, CacheEntry.recognized "a5" t5 s5],
        [CacheEntry.recognized "a4" t4 s4, CacheEntry.recognized "a3" t3 s3,
         CacheEntry.recognized "a2" t2 s2, CacheEntry.recognized "a1" t1 s1]) := by
    unfold handle_on_cache_update_sweep
    rw [hm1, hm2]
    simp only [hsort]
    norm_num
    rw [hcut]
    rfl
  unfold handle_on_cache_update_model
  rw [show fileName ["s", "b", "a6"] = some "a6" from rfl, hacq]
  simp only [hscan, hsweep]

/-- Witness for the amended C2: mtimes 1..6, size 1 each, soft size limit
1000000 with 60 %: the sweep deletes the four oldest artifacts. -/
theorem C2_sweep_by_count_amended_witness :
    handle_on_cache_update_model ⟨1, 19, 5, 3600, 3600, 1000000, 5, 60, 60⟩
        [Node.dir "s" true [Node.dir "b" true
          [Node.file ⟨"a6", "a6", none, some ⟨some 6, 1⟩⟩,
           Node.file ⟨"a5", "a5", none, some ⟨some 5, 1⟩⟩,
           Node.file ⟨"a4", "a4", none, some ⟨some 4, 1⟩⟩,
           Node.file ⟨"a3", "a3", none, some ⟨some 3, 1⟩⟩,
           Node.file ⟨"a2", "a2", none, some ⟨some 2, 1⟩⟩,
           Node.file ⟨"a1", "a1", none, some ⟨some 1, 1⟩⟩]]]
        ["s", "b", "a6"] 1 100 true =
      some ⟨true,
        [CacheEntry.recognized "a6" 6 1, CacheEntry.recognized "a5" 5 1],
        [CacheEntry.recognized "a4" 4 1, CacheEntry.recognized "a3" 3 1,
         CacheEntry.recognized "a2" 2 1, CacheEntry.recognized "a1" 1 1]⟩ :=
  C2_sweep_by_count_amended 1 19 5 3600 3600 1000000 60 1 2 3 4 5 6 1 1 1 1 1 1 100
    (by decide) (by decide) (by decide) (by decide) (by decide) (by decide) (by decide)
    (by decide) (by decide)

/-- Counterexample to C3: a stray depth-2 file `junk.txt` with a fresh
mtime (90, at time 100, with a 3600 s wip-lock timeout) falls into the
scanner's "assume it's a wip lock" branch, is unexpired, hence skipped:
the sweep deletes nothing, junk.txt is retained — the claim's "regardless
of junk.txt's mtime" fails. -/
theorem C3_unrecognized_eviction_cex :
    handle_on_cache_update_model ⟨1, 19, 5, 3600, 3600, 1000000, 100, 60, 60⟩
        [Node.dir "s" true [Node.dir "b" true
          [Node.file ⟨"a", "a", none, some ⟨some 50, 7⟩⟩,
           Node.file ⟨"junk.txt", "junk", some "txt", some ⟨some 90, 3⟩⟩]]]
        ["s", "b", "a"] 1 100 true =
      some ⟨true, [CacheEntry.recognized "a" 50 7], []⟩ := by
  decide

/-- C3 (amended): with one recognized artifact and a stray depth-2 file
`junk.txt` that is expired under `optimizing_compression_task_timeout`
(the scanner treats any unknown extension as a wip lock), a sweep that
acquires the cleanup lock deletes `junk.txt` and retains the artifact;
while `junk.txt` is unexpired it is skipped and survives. -/
theorem C3_unrecognized_eviction_amended (cfg : CacheConfig)
    (ma mj : Int) (sa sj : Nat) (now : Int)
    (hexp : is_fs_lock_expired (some mj) now
      cfg.optimizing_compression_task_timeout = true)
    (hci : 0 < cfg.cleanup_interval)
    (hsa : sa < cfg.files_total_size_soft_limit)
    (hfc : 2 ≤ cfg.files_count_soft_limit)
    (hov1 : cfg.files_total_size_soft_limit *
      cfg.files_total_size_limit_percent_if_deleting < 2 ^ 64)
    (hov2 : cfg.files_count_soft_limit *
      cfg.files_count_limit_percent_if_deleting < 2 ^ 64) :
    handle_on_cache_update_model cfg
        [Node.dir "s" true [Node.dir "b" true
          [Node.file ⟨"a", "a", none, some ⟨some ma, sa⟩⟩,
           Node.file ⟨"junk.txt", "junk", some "txt", some ⟨some mj, sj⟩⟩]]]
        ["s", "b", "a"] 1 now true =
      some ⟨true, [CacheEntry.recognized "a" ma sa],
        [CacheEntry.unrecognized "junk.txt" false]⟩ := by
  have hacq : acquire_task_fs_lock
      [Node.dir "s" true [Node.dir "b" true
        [Node.file ⟨"a", "a", none, some ⟨some ma, sa⟩⟩,
         Node.file ⟨"junk.txt", "junk", some "txt", some ⟨some mj, sj⟩⟩]]]
      ".cleanup" 1 now cfg.cleanup_interval true =
      some (".cleanup" ++ "." ++ ("wip-" ++ Nat.repr 1),
        [Node.dir "s" true [Node.dir "b" true
          [Node.file ⟨"a", "a", none, some ⟨some ma, sa⟩⟩,
           Node.file ⟨"junk.txt", "junk", some "txt", some ⟨some mj, sj⟩⟩]]] ++
        [lockNode ".cleanup" 1 now]) := rfl
  have hlock : is_fs_lock_expired (some now) now cfg.cleanup_interval = false := by
    simp only [is_fs_lock_expired, le_refl, if_pos, sub_self]
    simp only [decide_eq_false_iff_not]
    omega
  have hscan : list_cache_contents cfg now
      ([Node.dir "s" true [Node.dir "b" true
        [Node.file ⟨"a", "a", none, some ⟨some ma, sa⟩⟩,
         Node.file ⟨"junk.txt", "junk", some "txt", some ⟨some mj, sj⟩⟩]]] ++
       [lockNode ".cleanup" 1 now]) =
      [CacheEntry.unrecognized "junk.txt" false, CacheEntry.recognized "a" ma sa] := by
    simp [list_cache_contents, scanShard, scanBucket, pairEntries, findStats,
      findArtifact, isCacheCandidate, fileMtime, lockNode, hexp, hlock]
  have hm1 : checkedMul64 cfg.files_total_size_soft_limit
      cfg.files_total_size_limit_percent_if_deleting =
      some (cfg.files_total_size_soft_limit *
        cfg.files_total_size_limit_percent_if_deleting) := by
    unfold checkedMul64
    rw [if_pos hov1]
  have hm2 : checkedMul64 cfg.files_count_soft_limit
      cfg.files_count_limit_percent_if_deleting =
      some (cfg.files_count_soft_limit *
        cfg.files_count_limit_percent_if_deleting) := by
    unfold checkedMul64
    rw [if_pos hov2]
  have hsort : sortEntries
      [CacheEntry.unrecognized "junk.txt" false, CacheEntry.recognized "a" ma sa] =
      [CacheEntry.recognized "a" ma sa, CacheEntry.unrecognized "junk.txt" false] := by
    simp [sortEntries, List.insertionSort, List.orderedInsert, entryOrder]
  have hcut : sweepCut cfg.files_total_size_soft_limit cfg.files_count_soft_limit
      (cfg.files_total_size_soft_limit *
        cfg.files_total_size_limit_percent_if_deleting / 100)
      (cfg.files_count_soft_limit * cfg.files_count_limit_percent_if_deleting / 100)
      [CacheEntry.recognized "a" ma sa, CacheEntry.unrecognized "junk.txt" false]
      0 0 none = some 1 := by
    simp only [sweepCut]
    rw [if_neg (by omega : ¬(cfg.files_total_size_soft_limit ≤ 0 + sa ∨
      cfg.files_count_soft_limit ≤ 0 + 1))]
  have hsweep : handle_on_cache_update_sweep cfg
      [CacheEntry.unrecognized "junk.txt" false, CacheEntry.recognized "a" ma sa] =
      some ([CacheEntry.recognized "a" ma sa],
        [CacheEntry.unrecognized "junk.txt" false]) := by
    unfold handle_on_cache_update_sweep
    rw [hm1, hm2]
    simp [hsort, hcut]
  unfold handle_on_cache_update_model
  rw [show fileName ["s", "b", "a"] = some "a" from rfl, hacq]
  simp only [hscan, hsweep]

/-- Witness for the amended C3: at time 10000 a junk.txt of mtime 0 is
long expired (timeout 3600 s) and gets deleted while the artifact stays. -/
theorem C3_unrecognized_eviction_amended_witness :
    handle_on_cache_update_model ⟨1, 19, 5, 3600, 3600, 1000000, 100, 60, 60⟩
        [Node.dir "s" true [Node.dir "b" true
          [Node.file ⟨"a", "a", none, some ⟨some 50, 7⟩⟩,
           Node.file ⟨"junk.txt", "junk", some "txt", some ⟨some 0, 3⟩⟩]]]
        ["s", "b", "a"] 1 10000 true =
      some ⟨true, [CacheEntry.recognized "a" 50 7],
        [CacheEntry.unrecognized "junk.txt" false]⟩ :=
  C3_unrecognized_eviction_amended ⟨1, 19, 5, 3600, 3600, 1000000, 100, 60, 60⟩
    50 0 7 3 10000 (by decide) (by decide) (by decide) (by decide) (by decide) (by decide)

/-- C6: `is_fs_lock_expired` returns true when the mtime cannot be read;
for a past (or present) mtime it returns true exactly when
`now - mtime ≥ threshold`; for a future mtime it returns true exactly
when the future offset exceeds 24 hours. -/
theorem C6_is_fs_lock_expired_spec (mtime : Option Int) (now threshold : Int) :
    (mtime = none → is_fs_lock_expired mtime now threshold = true) ∧
    (∀ mt, mtime = some mt → mt ≤ now →
      (is_fs_lock_expired mtime now threshold = true ↔ threshold ≤ now - mt)) ∧
    (∀ mt, mtime = some mt → now < mt →
      (is_fs_lock_expired mtime now threshold = true ↔ 60 * 60 * 24 < mt - now)) := by
  refine ⟨?_, ?_, ?_⟩
  · rintro rfl
    rfl
  · rintro mt rfl hle
    simp [is_fs_lock_expired, hle]
  · rintro mt rfl hlt
    have : ¬ mt ≤ now := by omega
    simp [is_fs_lock_expired, this, DEFAULT_THRESHOLD]

/-- Witness for C6: an unreadable mtime is expired; mtime 10 at time 20 with
threshold 5 is expired; mtime 50 at time 20 (30 s in the future) is not. -/
theorem C6_is_fs_lock_expired_witness :
    is_fs_lock_expired none 20 5 = true ∧
    is_fs_lock_expired (some 10) 20 5 = true ∧
    is_fs_lock_expired (some 50) 20 5 = false := by
  refine ⟨(C6_is_fs_lock_expired_spec none 20 5).1 rfl, ?_, ?_⟩
  · exact ((C6_is_fs_lock_expired_spec (some 10) 20 5).2.1 10 rfl (by decide)).2 (by decide)
  · have h := (C6_is_fs_lock_expired_spec (some 50) 20 5).2.2 50 rfl (by decide)
    cases hb : is_fs_lock_expired (some 50) 20 5 with
    | false => rfl
    | true => exact absurd (h.1 hb) (by decide)

/-- C5: `handle_on_cache_get` always records the incremented usage counter
in the (always attempted, first) stats write; whenever the incremented
stats are already at the optimized level, or below the usage threshold,
or the stats write fails, no lock acquisition is attempted and the
artifact bytes are left unchanged; in particular an on-get on an artifact
whose stored stats already report at least the optimized level never
rewrites the blob. -/
theorem C5_on_get_guard (cfg : CacheConfig) (stem : String) (env : GetEnv) :
    (handle_on_cache_get cfg stem env).writtenStats = bumpStats cfg env.storedStats ∧
    ((cfg.optimized_compression_level ≤
        (bumpStats cfg env.storedStats).compression_level ∨
      (bumpStats cfg env.storedStats).usages <
        cfg.optimized_compression_usage_counter_threshold ∨
      env.statsWriteOk = false) →
      (handle_on_cache_get cfg stem env).lockAttempted = false ∧
      (handle_on_cache_get cfg stem env).artifact = env.artifactBytes ∧
      (handle_on_cache_get cfg stem env).renamed = false) ∧
    (∀ s, env.storedStats = some s →
      cfg.optimized_compression_level ≤ s.compression_level →
      (handle_on_cache_get cfg stem env).lockAttempted = false ∧
      (handle_on_cache_get cfg stem env).artifact = env.artifactBytes) := by
  have h1 : (handle_on_cache_get cfg stem env).writtenStats =
      bumpStats cfg env.storedStats := by
    unfold handle_on_cache_get
    repeat' split
    all_goals rfl
  have h2 : (cfg.optimized_compression_level ≤
        (bumpStats cfg env.storedStats).compression_level ∨
      (bumpStats cfg env.storedStats).usages <
        cfg.optimized_compression_usage_counter_threshold ∨
      env.statsWriteOk = false) →
      (handle_on_cache_get cfg stem env).lockAttempted = false ∧
      (handle_on_cache_get cfg stem env).artifact = env.artifactBytes ∧
      (handle_on_cache_get cfg stem env).renamed = false := by
    intro hc
    unfold handle_on_cache_get
    by_cases hw : env.statsWriteOk = false
    · rw [if_pos hw]
      exact ⟨rfl, rfl, rfl⟩
    · rcases hc with hc | hc | hc
      · rw [if_neg hw, if_pos (Or.inl hc)]
        exact ⟨rfl, rfl, rfl⟩
      · rw [if_neg hw, if_pos (Or.inr hc)]
        exact ⟨rfl, rfl, rfl⟩
      · exact absurd hc hw
  refine ⟨h1, h2, ?_⟩
  intro s hs hlev
  have h3 := h2 (Or.inl (by simpa [bumpStats, hs] using hlev))
  exact ⟨h3.1, h3.2.1⟩

/-- Witness for C5: stored stats `(usages 3, level 19)` with optimized
level 19: the counter is bumped to 4 and written, but no lock is taken
and the artifact `[7]` is untouched. -/
theorem C5_on_get_guard_witness :
    (handle_on_cache_get ⟨1, 19, 10, 3600, 3600, 100, 100, 50, 50⟩ "a"
      ⟨some ⟨3, 19⟩, true, [], 1, 0, true, [7], true, none, none, true, true,
        none⟩).writtenStats = ⟨4, 19⟩ ∧
    (handle_on_cache_get ⟨1, 19, 10, 3600, 3600, 100, 100, 50, 50⟩ "a"
      ⟨some ⟨3, 19⟩, true, [], 1, 0, true, [7], true, none, none, true, true,
        none⟩).lockAttempted = false ∧
    (handle_on_cache_get ⟨1, 19, 10, 3600, 3600, 100, 100, 50, 50⟩ "a"
      ⟨some ⟨3, 19⟩, true, [], 1, 0, true, [7], true, none, none, true, true,
        none⟩).artifact = [7] := by
  have h := C5_on_get_guard ⟨1, 19, 10, 3600, 3600, 100, 100, 50, 50⟩ "a"
    ⟨some ⟨3, 19⟩, true, [], 1, 0, true, [7], true, none, none, true, true, none⟩
  have h2 := h.2.1 (Or.inl (by decide))
  refine ⟨?_, h2.1, h2.2.1⟩
  rw [h.1]
  rfl

/-- C10: after a committed recompression (rename succeeded), if the
re-read of the stats file yields absent, `handle_on_cache_get` writes no
stats file at all: the artifact holds the re-encoded bytes while no stats
record registers the optimized level — so a later on-get (reading no
stats, hence defaulting to the baseline level) attempts the lock, and may
recompress the same artifact again. -/
theorem C10_post_commit_stats_absent (cfg : CacheConfig) (stem : String)
    (env : GetEnv)
    (hw : env.statsWriteOk = true)
    (hguard : ¬(cfg.optimized_compression_level ≤
        (bumpStats cfg env.storedStats).compression_level ∨
      (bumpStats cfg env.storedStats).usages <
        cfg.optimized_compression_usage_counter_threshold))
    (pr : String × List Node)
    (hacq : acquire_task_fs_lock env.dirEntries stem env.pid env.now
      cfg.optimizing_compression_task_timeout env.createOk = some pr)
    (hread : env.readOk = true)
    (d : List Nat) (hdec : env.decodeResult = some d)
    (r : List Nat) (henc : env.encodeResult = some r)
    (hwl : env.writeLockOk = true)
    (hrn : env.renameOk = true)
    (hrr : env.reReadStats = none) :
    (handle_on_cache_get cfg stem env).renamed = true ∧
    (handle_on_cache_get cfg stem env).postStatsWrite = none ∧
    (handle_on_cache_get cfg stem env).artifact = r ∧
    (∀ env2 : GetEnv, env2.storedStats = none → env2.statsWriteOk = true →
      cfg.baseline_compression_level < cfg.optimized_compression_level →
      cfg.optimized_compression_usage_counter_threshold ≤ 1 →
      (handle_on_cache_get cfg stem env2).lockAttempted = true) := by
  have hpipe : ((if env.readOk then some env.artifactBytes else none).bind
      fun _ => env.decodeResult).bind (fun _ => env.encodeResult) = some r := by
    rw [hread]
    simp [hdec, henc]
  have htrace : handle_on_cache_get cfg stem env =
      ⟨bumpStats cfg env.storedStats, true, true, r, true, none⟩ := by
    unfold handle_on_cache_get
    rw [if_neg (by simp [hw]), if_neg hguard]
    simp only [hacq, hpipe]
    rw [if_neg (by simp [hwl]), if_neg (by simp [hrn]), hrr]
  refine ⟨by rw [htrace], by rw [htrace], by rw [htrace], ?_⟩
  intro env2 hs2 hw2 hbl hthr
  unfold handle_on_cache_get
  rw [if_neg (by simp [hw2]),
    if_neg (by
      rintro (hc | hc) <;> simp [bumpStats, defaultStats, hs2] at hc <;> omega)]
  cases acquire_task_fs_lock env2.dirEntries stem env2.pid env2.now
      cfg.optimizing_compression_task_timeout env2.createOk with
  | none => rfl
  | some p =>
    repeat' split
    all_goals rfl

/-- Witness for C10: a full successful recompression whose stats re-read
comes back absent: committed, no post-commit stats write, artifact
replaced by the re-encoded bytes `[3]`; and a follow-up on-get with no
stats on disk attempts the lock again. -/
theorem C10_post_commit_stats_absent_witness :
    (handle_on_cache_get ⟨1, 19, 1, 3600, 3600, 100, 100, 50, 50⟩ "a"
      ⟨some ⟨9, 1⟩, true, [], 1, 0, true, [1, 2], true, some [9], some [3],
        true, true, none⟩).renamed = true ∧
    (handle_on_cache_get ⟨1, 19, 1, 3600, 3600, 100, 100, 50, 50⟩ "a"
      ⟨some ⟨9, 1⟩, true, [], 1, 0, true, [1, 2], true, some [9], some [3],
        true, true, none⟩).postStatsWrite = none ∧
    (handle_on_cache_get ⟨1, 19, 1, 3600, 3600, 100, 100, 50, 50⟩ "a"
      ⟨some ⟨9, 1⟩, true, [], 1, 0, true, [1, 2], true, some [9], some [3],
        true, true, none⟩).artifact = [3] ∧
    (handle_on_cache_get ⟨1, 19, 1, 3600, 3600, 100, 100, 50, 50⟩ "a"
      ⟨none, true, [], 1, 0, true, [3], true, some [9], some [3],
        true, true, none⟩).lockAttempted = true := by
  have h := C10_post_commit_stats_absent ⟨1, 19, 1, 3600, 3600, 100, 100, 50, 50⟩
    "a" ⟨some ⟨9, 1⟩, true, [], 1, 0, true, [1, 2], true, some [9], some [3],
      true, true, none⟩
    rfl (by decide) ("a.wip-1", [lockNode "a" 1 0]) rfl rfl [9] rfl [3] rfl
    rfl rfl rfl
  exact ⟨h.1, h.2.1, h.2.2.1,
    h.2.2.2 ⟨none, true, [], 1, 0, true, [3], true, some [9], some [3],
      true, true, none⟩ rfl rfl (by decide) (by decide)⟩

/-- C7: serializing a stats record and parsing it back yields the record
(the document carries the hyphenated `optimized-compression` key), and
parsing an empty or truncated document, or an unreadable file, yields
absent rather than an error. -/
theorem C7_stats_round_trip (s : ModuleCacheStatistics)
    (hu : s.usages < 18446744073709551616)
    (hl1 : -2147483648 ≤ s.compression_level)
    (hl2 : s.compression_level < 2147483648) :
    read_stats_file (some (write_stats_file s)) = some s ∧
    read_stats_file (some []) = none ∧
    read_stats_file (some ((write_stats_file s).take 1)) = none ∧
    read_stats_file none = none := by
  refine ⟨?_, rfl, rfl, rfl⟩
  have heq : read_stats_file (some (write_stats_file s)) =
      if 0 ≤ (s.usages : Int) ∧ (s.usages : Int) < 18446744073709551616 ∧
          -2147483648 ≤ s.compression_level ∧
          s.compression_level < 2147483648 then
        some ⟨(s.usages : Int).toNat, s.compression_level⟩
      else none := rfl
  rw [heq, if_pos ⟨Int.natCast_nonneg _, by exact_mod_cast hu, hl1, hl2⟩]
  simp

/-- Witness for C7: the record `(usages 5, level 3)` round-trips; the empty
and truncated documents parse to absent. -/
theorem C7_stats_round_trip_witness :
    read_stats_file (some (write_stats_file ⟨5, 3⟩)) = some ⟨5, 3⟩ ∧
    read_stats_file (some []) = none ∧
    read_stats_file (some ((write_stats_file ⟨5, 3⟩).take 1)) = none ∧
    read_stats_file none = none :=
  C7_stats_round_trip ⟨5, 3⟩ (by decide) (by decide) (by decide)

/-- Counterexample to C8: `handle_on_cache_get` does not run to completion
for every input path. On a path with no file name (e.g. the root path) it
panics at `path.file_name().unwrap()`; and on the path `x/a.b` — whose
file name `a.b` is valid but dotted — with stats at `(usages 9, level 1)`
and threshold 10, the successful stats write and passed recompression
guard lead it into `acquire_task_fs_lock`, whose
`assert!(task_path.extension().is_none())` panics. -/
theorem C8_no_panic_cex :
    handle_on_cache_get_model ⟨1, 19, 10, 3600, 3600, 100, 100, 50, 50⟩ []
      ⟨none, true, [], 1, 0, true, [], true, none, none, true, true, none⟩ =
      none ∧
    handle_on_cache_get_model ⟨1, 19, 10, 3600, 3600, 100, 100, 50, 50⟩
      ["x", "a.b"]
      ⟨some ⟨9, 1⟩, true, [], 1, 0, true, [], true, none, none, true, true,
        none⟩ = none :=
  ⟨rfl, rfl⟩

/-- C8 (amended): double initialization and a missing sender abort the
process; in addition the handlers `.unwrap()`/`.expect()` the path's file
name, `handle_on_cache_get` hits `acquire_task_fs_lock`'s
`assert!(extension().is_none())` whenever the artifact's file name is
dotted and the recompression guard passes, and `handle_on_cache_update`
`.unwrap()`s the quota `checked_mul`s — for every path whose file name
has no extension (and quota products within `u64`), both handlers run to
completion for every combination of I/O, parse and lock failures. -/
theorem C8_no_panic_amended (cfg : CacheConfig) (path : List String) (env : GetEnv)
    (root : List Node) (pid : Nat) (now : Int) (createOk : Bool)
    (hname : ∃ nm stem, fileName path = some nm ∧ rustFileStemExt nm = (stem, none))
    (hov1 : cfg.files_total_size_soft_limit *
      cfg.files_total_size_limit_percent_if_deleting < 2 ^ 64)
    (hov2 : cfg.files_count_soft_limit *
      cfg.files_count_limit_percent_if_deleting < 2 ^ 64) :
    (∃ t, handle_on_cache_get_model cfg path env = some t) ∧
    (∃ o, handle_on_cache_update_model cfg root path pid now createOk = some o) := by
  obtain ⟨nm, stem, hnm, hsplit⟩ := hname
  have hm1 : checkedMul64 cfg.files_total_size_soft_limit
      cfg.files_total_size_limit_percent_if_deleting =
      some (cfg.files_total_size_soft_limit *
        cfg.files_total_size_limit_percent_if_deleting) := by
    unfold checkedMul64
    rw [if_pos hov1]
  have hm2 : checkedMul64 cfg.files_count_soft_limit
      cfg.files_count_limit_percent_if_deleting =
      some (cfg.files_count_soft_limit *
        cfg.files_count_limit_percent_if_deleting) := by
    unfold checkedMul64
    rw [if_pos hov2]
  have hsw : ∀ index : List CacheEntry,
      ∃ r, handle_on_cache_update_sweep cfg index = some r := by
    intro index
    unfold handle_on_cache_update_sweep
    simp only [hm1, hm2]
    cases sweepCut cfg.files_total_size_soft_limit cfg.files_count_soft_limit
        (cfg.files_total_size_soft_limit *
          cfg.files_total_size_limit_percent_if_deleting / 100)
        (cfg.files_count_soft_limit *
          cfg.files_count_limit_percent_if_deleting / 100)
        (sortEntries index) 0 0 none with
    | none => exact ⟨_, rfl⟩
    | some i => exact ⟨_, rfl⟩
  constructor
  · refine ⟨handle_on_cache_get cfg stem env, ?_⟩
    unfold handle_on_cache_get_model
    rw [hnm]
    simp only [hsplit]
  · unfold handle_on_cache_update_model
    rw [hnm]
    cases hacq : acquire_task_fs_lock root ".cleanup" pid now
        cfg.cleanup_interval createOk with
    | none => exact ⟨_, rfl⟩
    | some p =>
      obtain ⟨pa, root2⟩ := p
      obtain ⟨⟨r, dl⟩, hr⟩ := hsw (list_cache_contents cfg now root2)
      refine ⟨⟨true, r, dl⟩, ?_⟩
      simp only [hr]

/-- Witness for the amended C8: with the path `a` (an extension-free file
name) both handlers return a result. -/
theorem C8_no_panic_amended_witness :
    (∃ t, handle_on_cache_get_model ⟨1, 19, 10, 3600, 3600, 100, 100, 50, 50⟩
      ["a"] ⟨none, false, [], 1, 0, true, [], false, none, none, false, false,
        none⟩ = some t) ∧
    (∃ o, handle_on_cache_update_model ⟨1, 19, 10, 3600, 3600, 100, 100, 50, 50⟩
      [] ["a"] 1 0 true = some o) :=
  C8_no_panic_amended ⟨1, 19, 10, 3600, 3600, 100, 100, 50, 50⟩ ["a"]
    ⟨none, false, [], 1, 0, true, [], false, none, none, false, false, none⟩
    [] 1 0 true ⟨"a", "a", rfl, rfl⟩ (by decide) (by decide)

end CacheWorker
